import Mathlib

/-!
Verification of the thumbnail pipeline in `addOverlay.py`.

The image data model is a shallow embedding of PIL images: an image is a
mode (we only need `RGB` and `RGBA`, the two modes the pipeline produces),
explicit width and height, and a total pixel function.  Pixels carry four
channels; for an `RGB`-mode image the alpha channel is meaningless and all
`RGB`-producing operations normalise it to 255.

Two pieces of PIL are numeric kernels whose exact values no statement here
depends on, so they are kept abstract as explicit function parameters:
`resample` (the Lanczos resampling kernel used by `Image.resize`: the model
only fixes that `resize` produces an image of exactly the requested
dimensions) and `blend` (the per-pixel Porter-Duff "over" arithmetic of
`Image.alpha_composite`: the model only fixes that the result is an RGBA
image of the destination's dimensions).  Concrete executable instantiations
(`nearestResample`, `overBlend`) are provided for evaluation.

Python floats are modelled as rationals with explicit `int()` truncation
(`pyInt`); for the quantities the pipeline computes (`width * 9 / 16`,
channel means over a 50x50 grid, `width * ratio` for small widths) the IEEE
double computation is exact or cannot cross an integer boundary, so the
rational model agrees with CPython.

Network and file I/O are external collaborators: `requests.get` is a
function `net : String → Nat × String` from a URL to a status code and the
response body, `Image.open` on fetched bytes is `dec : String → Except
String Img` (PIL raises on undecodable content, modelled by `Except`), and
`Image.open` on the overlay path is `oload : String → Except String Img`.
Uncaught Python exceptions are modelled by `Except.error` propagation.
-/

inductive Mode where
  | RGB
  | RGBA
deriving DecidableEq, BEq, Repr

structure Color where
  r : Nat
  g : Nat
  b : Nat
  a : Nat
deriving DecidableEq, BEq, Repr

structure Img where
  mode : Mode
  width : Nat
  height : Nat
  px : Nat → Nat → Color

/-- PIL `Image.convert`: converting to the same mode copies the image;
`RGB → RGBA` adds an opaque alpha channel; `RGBA → RGB` drops the alpha
channel (PIL does not composite against a background).  In the model the
retired alpha channel of an `RGB` image is normalised to 255. -/
def Img.convert (img : Img) (m : Mode) : Img :=
  if img.mode = m then img
  else
    { mode := m, width := img.width, height := img.height,
      px := fun x y => { img.px x y with a := 255 } }

/-- PIL `Image.new(mode, (w, h), color)`: a constant image.  For `RGB` mode
the alpha component of the supplied color is discarded (PIL accepts and
ignores a fourth component), normalised to 255 in the model. -/
def image_new (m : Mode) (w h : Nat) (c : Color) : Img :=
  { mode := m, width := w, height := h,
    px := fun _ _ => if m = Mode.RGB then { c with a := 255 } else c }

/-- PIL `Image.crop((l, u, r, lo))` with `l ≤ r ≤ width` and
`u ≤ lo ≤ height` (which every call in the pipeline guarantees by
clamping): the `(r - l) × (lo - u)` region with origin `(l, u)`. -/
def Img.crop (img : Img) (l u r lo : Nat) : Img :=
  { mode := img.mode, width := r - l, height := lo - u,
    px := fun x y => img.px (l + x) (u + y) }

/-- Resampling kernel abstraction for `Image.resize`: given the source
image, the target dimensions and a target coordinate, produce the resampled
pixel. The pipeline's claims are independent of the kernel (Lanczos in the
source), so it is a parameter everywhere. -/
abbrev Resample := Img → Nat → Nat → Nat → Nat → Color

/-- PIL `Image.resize((w, h), Image.Resampling.LANCZOS)`: an image of
exactly the requested dimensions, same mode, pixels given by the kernel. -/
def Img.resizeWith (resample : Resample) (img : Img) (w h : Nat) : Img :=
  { mode := img.mode, width := w, height := h,
    px := fun x y => resample img w h x y }

/-- A concrete executable kernel (nearest neighbour), used to instantiate
`Resample` in concrete evaluations. -/
def nearestResample : Resample := fun img w h x y =>
  img.px (x * img.width / w) (y * img.height / h)

/-- PIL `dst.paste(im, (ox, oy))` with no mask: the source is converted to
the destination mode, then copied into the destination rectangle at the
(possibly negative, hence `Int`) offset; pixels outside the destination
grid are implicitly clipped because the destination dimensions are kept. -/
def Img.paste (dst src : Img) (ox oy : Int) : Img :=
  { mode := dst.mode, width := dst.width, height := dst.height,
    px := fun x y =>
      if ox ≤ (x : Int) ∧ (x : Int) < ox + src.width ∧
         oy ≤ (y : Int) ∧ (y : Int) < oy + src.height then
        (src.convert dst.mode).px ((x : Int) - ox).toNat ((y : Int) - oy).toNat
      else dst.px x y }

def natAbsDiff (a b : Nat) : Nat := max a b - min a b

/-- PIL `ImageChops.difference(A, B)` (both arguments have the same mode
and size at every call site): channelwise absolute difference. -/
def difference (A B : Img) : Img :=
  { mode := A.mode, width := A.width, height := A.height,
    px := fun x y =>
      { r := natAbsDiff (A.px x y).r (B.px x y).r,
        g := natAbsDiff (A.px x y).g (B.px x y).g,
        b := natAbsDiff (A.px x y).b (B.px x y).b,
        a := natAbsDiff (A.px x y).a (B.px x y).a } }

/-- Whether a pixel is nonzero in some band of the given mode: PIL
`getbbox` inspects the three colour bands of an `RGB` image and all four
bands of an `RGBA` image. -/
def bandNonzero (m : Mode) (c : Color) : Bool :=
  if m = Mode.RGB then !(c.r == 0 && c.g == 0 && c.b == 0)
  else !(c.r == 0 && c.g == 0 && c.b == 0 && c.a == 0)

/-- Coordinates in column `x` holding a nonzero pixel. -/
def colScan (img : Img) (x : Nat) : List (Nat × Nat) :=
  (List.range img.height).filterMap fun y =>
    if bandNonzero img.mode (img.px x y) then some (x, y) else none

/-- All coordinates of nonzero pixels. -/
def nonzeroCoords (img : Img) : List (Nat × Nat) :=
  ((List.range img.width).map (colScan img)).flatten

/-- PIL `Image.getbbox()`: `none` when every pixel is zero in every band,
otherwise `some (left, upper, right, lower)` — the minimal box containing
every nonzero pixel, with exclusive right and lower bounds. -/
def getbbox (img : Img) : Option (Nat × Nat × Nat × Nat) :=
  match nonzeroCoords img with
  | [] => none
  | c :: cs =>
    some (((c :: cs).map Prod.fst).foldl min c.1,
          ((c :: cs).map Prod.snd).foldl min c.2,
          ((c :: cs).map Prod.fst).foldl max c.1 + 1,
          ((c :: cs).map Prod.snd).foldl max c.2 + 1)

/-- Line-by-line embedding of `crop_black_bars(img, tolerance=10)`
(`addOverlay.py` lines 9–23).  `left - expand` is `Nat` subtraction, which
agrees with Python's `max(left - expand, 0)` after the clamp. -/
def crop_black_bars (img : Img) (tolerance : Nat := 10) : Img :=
  let img := if img.mode ≠ Mode.RGB then img.convert Mode.RGB else img
  let bg := image_new Mode.RGB img.width img.height ⟨0, 0, 0, 0⟩
  let diff := difference img bg
  match getbbox diff with
  | some (left, upper, right, lower) =>
    let expand := 5
    let left := max (left - expand) 0
    let upper := max (upper - expand) 0
    let right := min (right + expand) img.width
    let lower := min (lower + expand) img.height
    img.crop left upper right lower
  | none => img

/-- Characters matched by the regex class `[a-zA-Z0-9_-]`. -/
def isIdChar (c : Char) : Bool :=
  (('a' ≤ c && c ≤ 'z') || ('A' ≤ c && c ≤ 'Z') || ('0' ≤ c && c ≤ '9')
    || c == '_' || c == '-')

/-- Whether `pat` is a prefix of `s` (character lists, exact case). -/
def listStartsWith : List Char → List Char → Bool
  | [], _ => true
  | _ :: _, [] => false
  | p :: ps, c :: cs => p == c && listStartsWith ps cs

/-- One attempt of the regex `(?:v=|youtu\.be/)([a-zA-Z0-9_-]{11})` at the
start of `s`: the two alternatives start with distinct characters, so no
backtracking between them can occur, and `{11}` requires exactly 11
class characters after the matched prefix. -/
def tryMatchAt (s : List Char) : Option (List Char) :=
  let rest :=
    if listStartsWith ['v', '='] s then some (s.drop 2)
    else if listStartsWith "youtu.be/".toList s then some (s.drop 9)
    else none
  rest.bind fun r =>
    let cand := r.take 11
    if cand.length = 11 && cand.all isIdChar then some cand else none

/-- Leftmost-match search of the video-id regex (`re.search` semantics). -/
def searchVideoId : List Char → Option (List Char)
  | [] => none
  | c :: rest =>
    match tryMatchAt (c :: rest) with
    | some m => some m
    | none => searchVideoId rest

/-- Embedding of `extract_video_id(url)` (lines 27–29). -/
def extract_video_id (url : String) : Option String :=
  (searchVideoId url.toList).map fun l => String.mk l

/-- Resolution fallback chain of `fetch_thumbnail_image` (lines 32–34). -/
def resolutions : List String :=
  ["maxresdefault", "sddefault", "hqdefault", "mqdefault", "default"]

def thumb_url (video_id res : String) : String :=
  "https://i.ytimg.com/vi/" ++ video_id ++ "/" ++ res ++ ".jpg"

/-- Loop body of `fetch_thumbnail_image` (lines 36–42): try each
resolution in order; on the first status-200 response decode the body
(`Image.open` raises on undecodable content — `Except.error`) and convert
to RGBA; if no response has status 200, return `none`. -/
def fetch_from (net : String → Nat × String) (dec : String → Except String Img)
    (video_id : String) : List String → Except String (Option Img)
  | [] => Except.ok none
  | res :: rest =>
    let response := net (thumb_url video_id res)
    if response.1 = 200 then
      match dec response.2 with
      | Except.ok im => Except.ok (some (im.convert Mode.RGBA))
      | Except.error e => Except.error e
    else fetch_from net dec video_id rest

/-- Embedding of `fetch_thumbnail_image(video_id)` (lines 31–42). -/
def fetch_thumbnail_image (net : String → Nat × String)
    (dec : String → Except String Img) (video_id : String) :
    Except String (Option Img) :=
  fetch_from net dec video_id resolutions

/-- Case-insensitive prefix test (the title regex carries `re.IGNORECASE`);
`pat` is given already lowercased. -/
def ciStartsWith : List Char → List Char → Bool
  | [], _ => true
  | _ :: _, [] => false
  | p :: ps, c :: cs => p == c.toLower && ciStartsWith ps cs

/-- Characters before the leftmost case-insensitive `</title>`; `none` if
there is no closing tag (the lazy group `(.*?)` takes the shortest text
before a closing tag). -/
def findTitleClose : List Char → Option (List Char)
  | [] => none
  | c :: rest =>
    if ciStartsWith "</title>".toList (c :: rest) then some []
    else
      match findTitleClose rest with
      | some g => some (c :: g)
      | none => none

/-- Leftmost match of `<title>(.*?)</title>` with `IGNORECASE | DOTALL`:
scan for the first `<title>` that is followed by a `</title>`, returning
the group between the tags. -/
def findTitleGroup : List Char → Option (List Char)
  | [] => none
  | c :: rest =>
    if ciStartsWith "<title>".toList (c :: rest) then
      match findTitleClose ((c :: rest).drop 7) with
      | some g => some g
      | none => findTitleGroup rest
    else findTitleGroup rest

/-- Python `str.replace(" - YouTube", "")`: delete every occurrence of the
10-character suffix marker. -/
def removeYouTubeMarker (l : List Char) : List Char :=
  match l with
  | [] => []
  | c :: rest =>
    if listStartsWith " - YouTube".toList (c :: rest) then
      removeYouTubeMarker (rest.drop 9)
    else c :: removeYouTubeMarker rest
termination_by l.length
decreasing_by
  all_goals simp [List.length_drop]
  omega

/-- Embedding of `fetch_video_title(video_url)` (lines 44–58): a
4xx/5xx status makes `raise_for_status` raise, which the enclosing
`try/except` turns into `None`; otherwise search the body for a title tag,
strip the YouTube marker and surrounding whitespace. -/
def fetch_video_title (net : String → Nat × String) (video_url : String) :
    Option String :=
  let response := net video_url
  if 400 ≤ response.1 ∧ response.1 < 600 then none
  else
    match findTitleGroup response.2.toList with
    | some g => some (String.mk (removeYouTubeMarker g)).trim
    | none => none

/-- Embedding of `crop_height_to_16_9(image)` (lines 60–72).
`int(width * 9 / 16)` is computed in IEEE doubles, but `width * 9` is
exact and dividing by 16 only shifts the exponent, so the truncated result
equals `Nat` division `width * 9 / 16`. -/
def crop_height_to_16_9 (image : Img) : Img :=
  let width := image.width
  let height := image.height
  let target_height := width * 9 / 16
  if height ≤ target_height then image
  else
    let top := (height - target_height) / 2
    let bottom := top + target_height
    image.crop 0 top width bottom

/-- Channel sum over the whole pixel grid of an image. -/
def sumChannel (f : Color → Nat) (img : Img) : Nat :=
  (((List.range img.width).map fun x =>
      (((List.range img.height).map fun y => f (img.px x y))).sum)).sum

/-- Embedding of `get_dominant_color(image)` (lines 73–77): downsample to
50×50, then per-band arithmetic mean truncated to an integer
(`ImageStat.Stat(...).mean` followed by `int`; the float mean cannot sit
within one ulp of a wrong integer, so truncation agrees with `Nat`
division).  A fourth (alpha) mean is produced for RGBA inputs and carried
in the alpha slot. -/
def get_dominant_color (resample : Resample) (image : Img) : Color :=
  let small := image.resizeWith resample 50 50
  let n := small.width * small.height
  { r := sumChannel Color.r small / n,
    g := sumChannel Color.g small / n,
    b := sumChannel Color.b small / n,
    a := sumChannel Color.a small / n }

/-- Embedding of `standardize_thumbnail(img)` (lines 79–101).
`img.copy()` is modelled by the image value itself (the model is pure).
The background is filled with the dominant color of the original,
pre-crop image, and the resized image is pasted at offset `(0, 0)`. -/
def standardize_thumbnail (resample : Resample) (img : Img) : Img :=
  let original := img
  let width := img.width
  let height := img.height
  let target_height := width * 9 / 16
  let img :=
    if height > target_height then
      img.crop 0 ((height - target_height) / 2) width
        (((height - target_height) / 2) + target_height)
    else img
  let img := img.resizeWith resample 1280 720
  let dominant_color := get_dominant_color resample original
  let background := image_new Mode.RGB 1280 720 dominant_color
  background.paste img 0 0

/-- Modelled from the spec's words, for the refinement comparison of the
dead background-fill path: the variant of `standardize_thumbnail` that
returns the 16:9-trimmed-then-resized-to-1280×720 image directly, with no
background creation and no paste. -/
def standardize_thumbnail_direct (resample : Resample) (img : Img) : Img :=
  let width := img.width
  let height := img.height
  let target_height := width * 9 / 16
  let img :=
    if height > target_height then
      img.crop 0 ((height - target_height) / 2) width
        (((height - target_height) / 2) + target_height)
    else img
  img.resizeWith resample 1280 720

/-- Python `int()` on a float value modelled as a rational: truncation
toward zero. -/
def pyInt (q : ℚ) : Int := if q < 0 then ⌈q⌉ else ⌊q⌋

/-- Fixed canvas of `process_thumbnail` (line 118). -/
def canvas_size : Nat × Nat := (1280, 720)

/-- Per-pixel blend abstraction for `Image.alpha_composite`; the claims are
independent of the arithmetic, so it is a parameter everywhere. -/
abbrev Blend := Color → Color → Color

/-- PIL `Image.alpha_composite(dst, src)` (both RGBA of equal size at every
call site): RGBA result of the destination's dimensions, pixels given by
the blend kernel. -/
def alpha_composite (blend : Blend) (dst src : Img) : Img :=
  { mode := Mode.RGBA, width := dst.width, height := dst.height,
    px := fun x y => blend (dst.px x y) (src.px x y) }

/-- A concrete executable blend kernel (integer Porter-Duff over), used to
instantiate `Blend` in concrete evaluations. -/
def overBlend : Blend := fun dst src =>
  let outA := src.a + dst.a * (255 - src.a) / 255
  if outA = 0 then ⟨0, 0, 0, 0⟩
  else
    ⟨(src.r * src.a + dst.r * dst.a * (255 - src.a) / 255) / outA,
     (src.g * src.a + dst.g * dst.a * (255 - src.a) / 255) / outA,
     (src.b * src.a + dst.b * dst.a * (255 - src.a) / 255) / outA,
     outA⟩

/-- Overlay stage of `process_thumbnail` (lines 128–139): Python's
`if overlay_image_path:` is falsy for both `None` and the empty string; a
supplied non-empty path is opened, converted to RGBA, resized to the
canvas and alpha-composited; any exception while doing so falls back to a
flat-color overlay; with no (truthy) path the flat-color overlay is
composited directly. -/
def apply_overlay (resample : Resample) (blend : Blend)
    (oload : String → Except String Img) (canvas : Img) (overlay_color : Color)
    (overlay_image_path : Option String) : Img :=
  match overlay_image_path with
  | some p =>
    if p = "" then
      alpha_composite blend canvas
        (image_new Mode.RGBA canvas_size.1 canvas_size.2 overlay_color)
    else
      match oload p with
      | Except.ok overlay_img =>
        alpha_composite blend canvas
          ((overlay_img.convert Mode.RGBA).resizeWith resample
            canvas_size.1 canvas_size.2)
      | Except.error _ =>
        alpha_composite blend canvas
          (image_new Mode.RGBA canvas_size.1 canvas_size.2 overlay_color)
  | none =>
    alpha_composite blend canvas
      (image_new Mode.RGBA canvas_size.1 canvas_size.2 overlay_color)

/-- Image-transformation core of `process_thumbnail` (lines 113–139),
from the fetched thumbnail to the final composite: standardize, crop black
bars (default tolerance), shrink by `resize_ratio` with `int()`
truncation, paste centered on a transparent canvas (`//` is floor
division, `Int.fdiv`), then apply the overlay stage. -/
def render_thumbnail (resample : Resample) (blend : Blend)
    (oload : String → Except String Img) (thumbnail : Img) (resize_ratio : ℚ)
    (overlay_color : Color) (overlay_image_path : Option String) : Img :=
  let thumbnail := standardize_thumbnail resample thumbnail
  let cropped := crop_black_bars thumbnail
  let target_w := (pyInt ((cropped.width : ℚ) * resize_ratio)).toNat
  let target_h := (pyInt ((cropped.height : ℚ) * resize_ratio)).toNat
  let shrunken := cropped.resizeWith resample target_w target_h
  let canvas := image_new Mode.RGBA canvas_size.1 canvas_size.2 ⟨0, 0, 0, 0⟩
  let ox := Int.fdiv ((canvas_size.1 : Int) - (target_w : Int)) 2
  let oy := Int.fdiv ((canvas_size.2 : Int) - (target_h : Int)) 2
  let pasted := canvas.paste shrunken ox oy
  apply_overlay resample blend oload pasted overlay_color overlay_image_path

/-- Characters removed by `re.sub(r'[\\/*?:"<>|]', "", title)` (line 146). -/
def badTitleChar (c : Char) : Bool :=
  c == '\\' || c == '/' || c == '*' || c == '?' || c == ':' || c == '"' ||
    c == '<' || c == '>' || c == '|'

/-- Filename sanitization of line 146: drop the forbidden characters, then
strip surrounding whitespace. -/
def sanitize_title (title : String) : String :=
  (String.mk (title.toList.filter fun c => !(badTitleChar c))).trim

/-- Embedding of `process_thumbnail(...)` (lines 103–150).  The returned
value is `Except.error` when an uncaught exception propagates (a decode
failure inside `fetch_thumbnail_image`), `Except.ok none` when the item is
skipped with no output (unresolvable id, or no resolution returned status
200), and `Except.ok (some (path, img))` for the saved output file.
Python's `if not title:` is also truthy for an empty-string title. -/
def process_thumbnail (resample : Resample) (blend : Blend)
    (net : String → Nat × String) (dec : String → Except String Img)
    (oload : String → Except String Img) (video_url output_dir : String)
    (resize_ratio : ℚ) (overlay_color : Color)
    (overlay_image_path : Option String) (append : String) :
    Except String (Option (String × Img)) :=
  match extract_video_id video_url with
  | none => Except.ok none
  | some video_id =>
    match fetch_thumbnail_image net dec video_id with
    | Except.error e => Except.error e
    | Except.ok none => Except.ok none
    | Except.ok (some thumbnail) =>
      let final_img :=
        render_thumbnail resample blend oload thumbnail resize_ratio
          overlay_color overlay_image_path
      let title :=
        match fetch_video_title net video_url with
        | some t => if t = "" then video_id else t
        | none => video_id
      let vidTitle := sanitize_title title
      let output_path :=
        output_dir ++ "/" ++ ((vidTitle ++ " " ++ append).trim ++ ".png")
      Except.ok (some (output_path, final_img))

/-- Embedding of `load_urls_from_file` (lines 152–154) on the file's text:
split into lines, strip each, drop blank lines. -/
def load_urls_from_file (content : String) : List String :=
  ((content.splitOn "\n").map String.trim).filter fun l => !(l == "")

/-- Loop of `batch_process_thumbnails` (lines 165–169): for each URL fetch
the title (result discarded by the source), then produce the White and the
Black overlay variant at scale 0.955; an `Except.error` anywhere aborts
the remaining iterations, exactly as an uncaught Python exception ends the
loop. -/
def processUrls (resample : Resample) (blend : Blend)
    (net : String → Nat × String) (dec : String → Except String Img)
    (oload : String → Except String Img) (output_dir : String) :
    List String → Except String (List (String × Img))
  | [] => Except.ok []
  | url :: rest =>
    let _title := fetch_video_title net url
    match process_thumbnail resample blend net dec oload url output_dir
        (955 / 1000 : ℚ) ⟨0, 0, 0, 100⟩ (some "RSVP Outline White.png")
        "White" with
    | Except.error e => Except.error e
    | Except.ok o1 =>
      match process_thumbnail resample blend net dec oload url output_dir
          (955 / 1000 : ℚ) ⟨0, 0, 0, 100⟩ (some "RSVP Outline Black.png")
          "Black" with
      | Except.error e => Except.error e
      | Except.ok o2 =>
        match processUrls resample blend net dec oload output_dir rest with
        | Except.error e => Except.error e
        | Except.ok os => Except.ok (o1.toList ++ (o2.toList ++ os))

/-- Embedding of `batch_process_thumbnails(file_path, output_dir)`
(lines 162–169): clearing the output folder is a filesystem effect with no
bearing on the produced images and is not modelled; the URL list is read
from the file's text and processed sequentially. -/
def batch_process_thumbnails (resample : Resample) (blend : Blend)
    (net : String → Nat × String) (dec : String → Except String Img)
    (oload : String → Except String Img) (file_content : String)
    (output_dir : String := "thumbnails") :
    Except String (List (String × Img)) :=
  processUrls resample blend net dec oload output_dir
    (load_urls_from_file file_content)

/-- Channelwise equality of two pixels under a mode: the alpha channel
exists (and is compared) only in RGBA mode. -/
def pxBEq (m : Mode) (c d : Color) : Bool :=
  c.r == d.r && c.g == d.g && c.b == d.b && (m == Mode.RGB || c.a == d.a)

/-- Bit-identity of two images: same mode (hence the same channel count),
same dimensions, and equal channel values at every coordinate of the
grid. -/
def Img.Eqv (A B : Img) : Prop :=
  A.mode = B.mode ∧ A.width = B.width ∧ A.height = B.height ∧
    ∀ x, x < A.width → ∀ y, y < A.height →
      pxBEq A.mode (A.px x y) (B.px x y) = true

instance (A B : Img) : Decidable (Img.Eqv A B) := by
  unfold Img.Eqv
  infer_instance

/-- Equality of visible pixel content: same dimensions and the same three
colour-channel values everywhere, regardless of mode or alpha. -/
def Img.SameRGB (A B : Img) : Prop :=
  A.width = B.width ∧ A.height = B.height ∧
    ∀ x, x < A.width → ∀ y, y < A.height →
      (A.px x y).r = (B.px x y).r ∧ (A.px x y).g = (B.px x y).g ∧
        (A.px x y).b = (B.px x y).b

lemma Img.convert_mode (img : Img) (m : Mode) : (img.convert m).mode = m := by
  unfold Img.convert
  split
  · next h => exact h
  · rfl

lemma Img.convert_width (img : Img) (m : Mode) :
    (img.convert m).width = img.width := by
  unfold Img.convert
  split <;> rfl

lemma Img.convert_height (img : Img) (m : Mode) :
    (img.convert m).height = img.height := by
  unfold Img.convert
  split <;> rfl

lemma Img.convert_px_rgb (img : Img) (m : Mode) (x y : Nat) :
    ((img.convert m).px x y).r = (img.px x y).r ∧
      ((img.convert m).px x y).g = (img.px x y).g ∧
      ((img.convert m).px x y).b = (img.px x y).b := by
  unfold Img.convert
  split <;> exact ⟨rfl, rfl, rfl⟩

lemma natAbsDiff_zero_right (a : Nat) : natAbsDiff a 0 = a := by
  simp [natAbsDiff]

/-- A list of lists whose members are all empty flattens to the empty
list. -/
lemma flatten_nil_of {α : Type} (L : List (List α))
    (h : ∀ l ∈ L, l = []) : L.flatten = [] := by
  induction L with
  | nil => rfl
  | cons a t ih =>
    have ha : a = [] := h a (by simp)
    have ht : t.flatten = [] := ih fun l hl => h l (by simp [hl])
    simp [List.flatten_cons, ha, ht]

/-- A `filterMap` whose function returns `none` on every member is
empty. -/
lemma filterMap_nil_of {α β : Type} (g : α → Option β) (l : List α)
    (h : ∀ a ∈ l, g a = none) : l.filterMap g = [] := by
  induction l with
  | nil => rfl
  | cons a t ih =>
    have ha : g a = none := h a (by simp)
    have ht : t.filterMap g = [] := ih fun b hb => h b (by simp [hb])
    simp [List.filterMap_cons, ha, ht]

/-- A `filterMap` over `List.range n` that hits exactly once produces the
corresponding singleton. -/
lemma range_filterMap_single {β : Type} (g : Nat → Option β) (v : β) :
    ∀ n j, j < n → g j = some v → (∀ i, i < n → i ≠ j → g i = none) →
      (List.range n).filterMap g = [v] := by
  intro n
  induction n with
  | zero => omega
  | succ m ih =>
    intro j hj hgj h0
    rw [List.range_succ, List.filterMap_append]
    by_cases hjm : j = m
    · have h1 : (List.range m).filterMap g = [] := by
        apply filterMap_nil_of
        intro i hi
        rw [List.mem_range] at hi
        exact h0 i (by omega) (by omega)
      have hgm : g m = some v := hjm ▸ hgj
      simp [h1, List.filterMap_cons, hgm]
    · have h2 : (List.range m).filterMap g = [v] :=
        ih j (by omega) hgj fun i hi hij => h0 i (by omega) hij
      have h3 : g m = none := h0 m (by omega) fun he => hjm he.symm
      simp [h2, List.filterMap_cons, h3]

/-- A flattened `map` over `List.range n` where exactly one index yields
the singleton `[v]` and every other index yields `[]` produces `[v]`. -/
lemma range_flatten_single {β : Type} (f : Nat → List β) (v : β) :
    ∀ n j, j < n → f j = [v] → (∀ i, i < n → i ≠ j → f i = []) →
      ((List.range n).map f).flatten = [v] := by
  intro n
  induction n with
  | zero => omega
  | succ m ih =>
    intro j hj hfj h0
    rw [List.range_succ, List.map_append, List.flatten_append]
    by_cases hjm : j = m
    · have h1 : ((List.range m).map f).flatten = [] := by
        apply flatten_nil_of
        intro l hl
        rw [List.mem_map] at hl
        obtain ⟨i, hi, rfl⟩ := hl
        rw [List.mem_range] at hi
        exact h0 i (by omega) (by omega)
      have hfm : f m = [v] := hjm ▸ hfj
      simp [h1, hfm]
    · have h2 : ((List.range m).map f).flatten = [v] :=
        ih j (by omega) hfj fun i hi hij => h0 i (by omega) hij
      have h3 : f m = [] := h0 m (by omega) fun he => hjm he.symm
      simp [h2, h3]

/-- An image with no nonzero band anywhere has no nonzero coordinates. -/
lemma nonzeroCoords_nil (img : Img)
    (h : ∀ a, a < img.width → ∀ b, b < img.height →
      bandNonzero img.mode (img.px a b) = false) :
    nonzeroCoords img = [] := by
  unfold nonzeroCoords
  apply flatten_nil_of
  intro l hl
  rw [List.mem_map] at hl
  obtain ⟨a, ha, rfl⟩ := hl
  rw [List.mem_range] at ha
  unfold colScan
  apply filterMap_nil_of
  intro b hb
  rw [List.mem_range] at hb
  rw [h a ha b hb]
  rfl

/-- The mode-normalisation step at the top of `crop_black_bars` always
produces an RGB image. -/
lemma ifRGB_mode (img : Img) :
    (if img.mode ≠ Mode.RGB then img.convert Mode.RGB else img).mode =
      Mode.RGB := by
  split
  · exact Img.convert_mode img Mode.RGB
  · next h => exact not_not.mp h

lemma ifRGB_width (img : Img) :
    (if img.mode ≠ Mode.RGB then img.convert Mode.RGB else img).width =
      img.width := by
  split
  · exact Img.convert_width img Mode.RGB
  · rfl

lemma ifRGB_height (img : Img) :
    (if img.mode ≠ Mode.RGB then img.convert Mode.RGB else img).height =
      img.height := by
  split
  · exact Img.convert_height img Mode.RGB
  · rfl

lemma ifRGB_px_rgb (img : Img) (x y : Nat) :
    (((if img.mode ≠ Mode.RGB then img.convert Mode.RGB else img).px x y).r =
        (img.px x y).r) ∧
      (((if img.mode ≠ Mode.RGB then img.convert Mode.RGB else img).px x y).g =
        (img.px x y).g) ∧
      (((if img.mode ≠ Mode.RGB then img.convert Mode.RGB else img).px x y).b =
        (img.px x y).b) := by
  split
  · exact Img.convert_px_rgb img Mode.RGB x y
  · exact ⟨rfl, rfl, rfl⟩

/-- A 1×1 all-black RGBA image. -/
def blackRGBA1 : Img := ⟨Mode.RGBA, 1, 1, fun _ _ => ⟨0, 0, 0, 255⟩⟩

/-- A 2×2 all-black RGB image. -/
def blackRGB2 : Img := ⟨Mode.RGB, 2, 2, fun _ _ => ⟨0, 0, 0, 255⟩⟩

/-- A 16×15 RGB image, taller than 16:9 (target height 9). -/
def tallImg : Img := ⟨Mode.RGB, 16, 15, fun _ _ => ⟨10, 20, 30, 255⟩⟩

/-- A 3×3 black RGB image with a single non-black pixel at (1, 1). -/
def dotImg : Img :=
  ⟨Mode.RGB, 3, 3, fun x y =>
    if x = 1 ∧ y = 1 then ⟨7, 7, 7, 255⟩ else ⟨0, 0, 0, 255⟩⟩

/-- C3: the `tolerance` parameter of `crop_black_bars` has no influence on
the output: for every image and every two tolerance values the results are
identical (the bounding-box decision is pixel-exact regardless). -/
theorem c3_tolerance_no_influence (img : Img) (t1 t2 : Nat) :
    crop_black_bars img t1 = crop_black_bars img t2 := rfl

/-- C2 counterexample: the claim "for every image whose pixels are all
black, `crop_black_bars` returns it bit-identically (same channel count)"
fails on a 1×1 all-black RGBA image, which comes back converted to
3-channel RGB mode. -/
theorem c2_counterexample_rgba :
    ¬ Img.Eqv (crop_black_bars blackRGBA1 10) blackRGBA1 := by decide

/-- C2 (amended): for every all-black image that is already in RGB mode,
`crop_black_bars` returns its input unchanged — the difference against the
black background has an empty bounding box, so the no-crop path returns
the very image. -/
theorem c2_all_black_unchanged (img : Img) (t : Nat)
    (hmode : img.mode = Mode.RGB)
    (hblack : ∀ x, x < img.width → ∀ y, y < img.height →
      (img.px x y).r = 0 ∧ (img.px x y).g = 0 ∧ (img.px x y).b = 0) :
    crop_black_bars img t = img := by
  have hif : (if img.mode ≠ Mode.RGB then img.convert Mode.RGB else img) =
      img := if_neg (not_not_intro hmode)
  have hbb : getbbox (difference img
      (image_new Mode.RGB img.width img.height ⟨0, 0, 0, 0⟩)) = none := by
    unfold getbbox
    have hnz : nonzeroCoords (difference img
        (image_new Mode.RGB img.width img.height ⟨0, 0, 0, 0⟩)) = [] := by
      apply nonzeroCoords_nil
      intro a ha b hb
      obtain ⟨h1, h2, h3⟩ := hblack a ha b hb
      simp [difference, image_new, bandNonzero, hmode, natAbsDiff_zero_right,
        h1, h2, h3]
    rw [hnz]
  simp only [crop_black_bars, hif, hbb]

/-- Witness for the amended C2 on a concrete 2×2 all-black RGB image. -/
theorem c2_all_black_unchanged_witness :
    crop_black_bars blackRGB2 10 = blackRGB2 :=
  c2_all_black_unchanged blackRGB2 10 rfl (by decide)

/-- C10: `crop_black_bars` always returns a 3-channel RGB image, and a
non-RGB input is converted to RGB before black-bar detection — running the
function on the input or on its RGB conversion is the same computation, on
both the cropped and the no-crop return paths. -/
theorem c10_always_rgb (img : Img) (t : Nat) :
    (crop_black_bars img t).mode = Mode.RGB ∧
      (img.mode ≠ Mode.RGB →
        crop_black_bars img t = crop_black_bars (img.convert Mode.RGB) t) := by
  constructor
  · simp only [crop_black_bars]
    split
    · exact ifRGB_mode img
    · exact ifRGB_mode img
  · intro hm
    have h1 : (if img.mode ≠ Mode.RGB then img.convert Mode.RGB else img) =
        img.convert Mode.RGB := if_pos hm
    have h2 : (if (img.convert Mode.RGB).mode ≠ Mode.RGB then
        (img.convert Mode.RGB).convert Mode.RGB else img.convert Mode.RGB) =
        img.convert Mode.RGB :=
      if_neg (not_not_intro (Img.convert_mode img Mode.RGB))
    simp only [crop_black_bars, h1, h2]

/-- Witness for C10 on a concrete 1×1 RGBA image. -/
theorem c10_always_rgb_witness :
    (crop_black_bars blackRGBA1 10).mode = Mode.RGB ∧
      crop_black_bars blackRGBA1 10 =
        crop_black_bars (blackRGBA1.convert Mode.RGB) 10 :=
  ⟨(c10_always_rgb blackRGBA1 10).1,
    (c10_always_rgb blackRGBA1 10).2 (by decide)⟩

/-- C6: for every input image, `standardize_thumbnail` returns an opaque
3-channel RGB image of exactly 1280×720 pixels — the output is the pasted
1280×720 RGB background, whatever the input dimensions or aspect ratio. -/
theorem c6_standardize_dims (resample : Resample) (img : Img) :
    (standardize_thumbnail resample img).width = 1280 ∧
      (standardize_thumbnail resample img).height = 720 ∧
      (standardize_thumbnail resample img).mode = Mode.RGB :=
  ⟨rfl, rfl, rfl⟩

/-- C4: `crop_height_to_16_9` with `target_height = width * 9 / 16`
returns the image unchanged when `height ≤ target_height`, otherwise
center-crops with `top = (height - target_height) / 2`; the output width
always equals the input width and the output height is
`min height target_height`. -/
theorem c4_crop_height (image : Img) :
    (image.height ≤ image.width * 9 / 16 → crop_height_to_16_9 image = image) ∧
      (image.width * 9 / 16 < image.height →
        crop_height_to_16_9 image =
          image.crop 0 ((image.height - image.width * 9 / 16) / 2) image.width
            (((image.height - image.width * 9 / 16) / 2) +
              image.width * 9 / 16)) ∧
      (crop_height_to_16_9 image).width = image.width ∧
      (crop_height_to_16_9 image).height =
        min image.height (image.width * 9 / 16) := by
  simp only [crop_height_to_16_9]
  by_cases h : image.height ≤ image.width * 9 / 16
  · rw [if_pos h]
    exact ⟨fun _ => rfl, fun hlt => absurd hlt (by omega), rfl, by omega⟩
  · rw [if_neg h]
    refine ⟨fun hle => absurd hle h, fun _ => rfl, ?_, ?_⟩
    · simp [Img.crop]
    · simp only [Img.crop]
      omega

/-- Witness for C4 on a concrete 16×15 image (target height 9). -/
theorem c4_crop_height_witness :
    crop_height_to_16_9 tallImg =
      tallImg.crop 0 ((tallImg.height - tallImg.width * 9 / 16) / 2)
        tallImg.width
        (((tallImg.height - tallImg.width * 9 / 16) / 2) +
          tallImg.width * 9 / 16) :=
  (c4_crop_height tallImg).2.1 (by decide)

/-- The bounding box of the black-background difference of an RGB image
with exactly one non-black pixel at `(x, y)` is the one-pixel box
`(x, y, x + 1, y + 1)`. -/
lemma getbbox_single (A : Img) (hA : A.mode = Mode.RGB) (x y : Nat)
    (hx : x < A.width) (hy : y < A.height)
    (hnb : ¬((A.px x y).r = 0 ∧ (A.px x y).g = 0 ∧ (A.px x y).b = 0))
    (hbl : ∀ a, a < A.width → ∀ b, b < A.height → (a, b) ≠ (x, y) →
      (A.px a b).r = 0 ∧ (A.px a b).g = 0 ∧ (A.px a b).b = 0) :
    getbbox (difference A (image_new Mode.RGB A.width A.height ⟨0, 0, 0, 0⟩)) =
      some (x, y, x + 1, y + 1) := by
  have hpx : ∀ a b,
      ((difference A (image_new Mode.RGB A.width A.height ⟨0, 0, 0, 0⟩)).px a b).r
          = (A.px a b).r ∧
        ((difference A (image_new Mode.RGB A.width A.height ⟨0, 0, 0, 0⟩)).px a b).g
          = (A.px a b).g ∧
        ((difference A (image_new Mode.RGB A.width A.height ⟨0, 0, 0, 0⟩)).px a b).b
          = (A.px a b).b := by
    intro a b
    simp [difference, image_new, natAbsDiff_zero_right]
  have hnzb : ∀ a b,
      bandNonzero
          (difference A (image_new Mode.RGB A.width A.height ⟨0, 0, 0, 0⟩)).mode
          ((difference A (image_new Mode.RGB A.width A.height ⟨0, 0, 0, 0⟩)).px a b)
        = true ↔
        ¬((A.px a b).r = 0 ∧ (A.px a b).g = 0 ∧ (A.px a b).b = 0) := by
    intro a b
    obtain ⟨e1, e2, e3⟩ := hpx a b
    have hm : (difference A
        (image_new Mode.RGB A.width A.height ⟨0, 0, 0, 0⟩)).mode = Mode.RGB := hA
    rw [hm]
    simp [bandNonzero, e1, e2, e3]
    tauto
  have hcoords : nonzeroCoords
      (difference A (image_new Mode.RGB A.width A.height ⟨0, 0, 0, 0⟩)) =
      [(x, y)] := by
    unfold nonzeroCoords
    apply range_flatten_single _ (x, y) _ x hx
    · unfold colScan
      apply range_filterMap_single _ (x, y) _ y hy
      · rw [if_pos ((hnzb x y).mpr hnb)]
      · intro b hb hbne
        rw [if_neg]
        rw [hnzb x b]
        push_neg
        exact hbl x hx b hb (by simp [hbne])
    · intro a ha hane
      unfold colScan
      apply filterMap_nil_of
      intro b hb
      rw [List.mem_range] at hb
      rw [if_neg]
      rw [hnzb a b]
      push_neg
      exact hbl a ha b hb (by simp [hane])
  unfold getbbox
  rw [hcoords]
  simp

/-- C5: for every image with exactly one non-black pixel at `(x, y)`,
`crop_black_bars` returns the region of the (RGB-normalised) image whose
bounds are the one-pixel box around `(x, y)` expanded by the fixed margin
of 5 on each side and clamped to the image bounds. -/
theorem c5_single_pixel (img : Img) (t x y : Nat)
    (hx : x < img.width) (hy : y < img.height)
    (hnb : ¬((img.px x y).r = 0 ∧ (img.px x y).g = 0 ∧ (img.px x y).b = 0))
    (hbl : ∀ a, a < img.width → ∀ b, b < img.height → (a, b) ≠ (x, y) →
      (img.px a b).r = 0 ∧ (img.px a b).g = 0 ∧ (img.px a b).b = 0) :
    crop_black_bars img t =
      (if img.mode ≠ Mode.RGB then img.convert Mode.RGB else img).crop
        (max (x - 5) 0) (max (y - 5) 0) (min (x + 1 + 5) img.width)
        (min (y + 1 + 5) img.height) := by
  have hCw := ifRGB_width img
  have hCh := ifRGB_height img
  have hbb := getbbox_single
    (if img.mode ≠ Mode.RGB then img.convert Mode.RGB else img)
    (ifRGB_mode img) x y (by rw [hCw]; exact hx) (by rw [hCh]; exact hy)
    (by
      obtain ⟨e1, e2, e3⟩ := ifRGB_px_rgb img x y
      rw [e1, e2, e3]
      exact hnb)
    (by
      intro a ha b hb hne
      obtain ⟨e1, e2, e3⟩ := ifRGB_px_rgb img a b
      rw [e1, e2, e3]
      exact hbl a (by rw [← hCw]; exact ha) b (by rw [← hCh]; exact hb) hne)
  simp only [crop_black_bars, hbb]
  rw [hCw, hCh]

/-- Witness for C5 on a concrete 3×3 image with its single non-black pixel
at (1, 1): the expanded box clamps to the whole image. -/
theorem c5_single_pixel_witness :
    crop_black_bars dotImg 10 =
      (if dotImg.mode ≠ Mode.RGB then dotImg.convert Mode.RGB else dotImg).crop
        (max (1 - 5) 0) (max (1 - 5) 0) (min (1 + 1 + 5) dotImg.width)
        (min (1 + 1 + 5) dotImg.height) :=
  c5_single_pixel dotImg 10 1 1 (by decide) (by decide) (by decide) (by decide)

/-- C7: the background fill of `standardize_thumbnail` never shows
through: the pixel content of the output equals the 16:9-trimmed,
resized-to-1280×720 image itself, so the paste-onto-background version is
equivalent (as visible pixel content) to returning the resized image
directly. -/
theorem c7_background_never_shows (resample : Resample) (img : Img) :
    Img.SameRGB (standardize_thumbnail resample img)
      (standardize_thumbnail_direct resample img) := by
  refine ⟨rfl, rfl, ?_⟩
  intro x hx y hy
  have hx' : x < 1280 := hx
  have hy' : y < 720 := hy
  simp only [standardize_thumbnail, standardize_thumbnail_direct, Img.paste,
    Img.resizeWith]
  rw [if_pos (by refine ⟨by omega, by omega, by omega, by omega⟩)]
  have hix : ((x : Int) - 0).toNat = x := by omega
  have hiy : ((y : Int) - 0).toNat = y := by omega
  rw [hix, hiy]
  exact Img.convert_px_rgb _ Mode.RGB x y

lemma crop_black_bars_width_le (img : Img) (t : Nat) :
    (crop_black_bars img t).width ≤ img.width := by
  have hw := ifRGB_width img
  simp only [crop_black_bars]
  split
  · simp only [Img.crop]
    omega
  · omega

lemma crop_black_bars_height_le (img : Img) (t : Nat) :
    (crop_black_bars img t).height ≤ img.height := by
  have hh := ifRGB_height img
  simp only [crop_black_bars]
  split
  · simp only [Img.crop]
    omega
  · omega

/-- Inside the pasted rectangle (at nonnegative offsets), `paste` holds
exactly the source image's pixels, converted to the destination mode. -/
lemma paste_px_in (dst src : Img) (ox oy : Int) (hox : 0 ≤ ox) (hoy : 0 ≤ oy)
    (i j : Nat) (hi : i < src.width) (hj : j < src.height) :
    (dst.paste src ox oy).px (ox.toNat + i) (oy.toNat + j) =
      (src.convert dst.mode).px i j := by
  simp only [Img.paste]
  rw [if_pos (by refine ⟨by omega, by omega, by omega, by omega⟩)]
  have h1 : ((((ox.toNat + i : Nat)) : Int) - ox).toNat = i := by omega
  have h2 : ((((oy.toNat + j : Nat)) : Int) - oy).toNat = j := by omega
  rw [h1, h2]

lemma apply_overlay_width (resample : Resample) (blend : Blend)
    (oload : String → Except String Img) (canvas : Img) (ocolor : Color)
    (opath : Option String) :
    (apply_overlay resample blend oload canvas ocolor opath).width =
      canvas.width := by
  unfold apply_overlay
  split
  · split
    · rfl
    · split <;> rfl
  · rfl

lemma apply_overlay_height (resample : Resample) (blend : Blend)
    (oload : String → Except String Img) (canvas : Img) (ocolor : Color)
    (opath : Option String) :
    (apply_overlay resample blend oload canvas ocolor opath).height =
      canvas.height := by
  unfold apply_overlay
  split
  · split
    · rfl
    · split <;> rfl
  · rfl

lemma apply_overlay_mode (resample : Resample) (blend : Blend)
    (oload : String → Except String Img) (canvas : Img) (ocolor : Color)
    (opath : Option String) :
    (apply_overlay resample blend oload canvas ocolor opath).mode =
      Mode.RGBA := by
  unfold apply_overlay
  split
  · split
    · rfl
    · split <;> rfl
  · rfl

set_option maxRecDepth 16384 in
/-- C8: for every source image and every `resize_ratio` in (0, 1], the
final composite of the composition engine is exactly 1280×720 with an
alpha channel, it is the overlay stage applied to the canvas obtained by
pasting the shrunken image at the centered offset
`((1280 - target_w) // 2, (720 - target_h) // 2)`, and inside the pasted
rectangle that canvas holds exactly the shrunken image's pixels. -/
theorem c8_composition (resample : Resample) (blend : Blend)
    (oload : String → Except String Img) (thumbnail : Img) (ratio : ℚ)
    (ocolor : Color) (opath : Option String)
    (h0 : 0 < ratio) (h1 : ratio ≤ 1) :
    (render_thumbnail resample blend oload thumbnail ratio ocolor opath).width
        = 1280 ∧
      (render_thumbnail resample blend oload thumbnail ratio ocolor
        opath).height = 720 ∧
      (render_thumbnail resample blend oload thumbnail ratio ocolor
        opath).mode = Mode.RGBA ∧
      (let cropped := crop_black_bars (standardize_thumbnail resample thumbnail)
       let target_w := (pyInt ((cropped.width : ℚ) * ratio)).toNat
       let target_h := (pyInt ((cropped.height : ℚ) * ratio)).toNat
       let shrunken := cropped.resizeWith resample target_w target_h
       let canvas := image_new Mode.RGBA canvas_size.1 canvas_size.2 ⟨0, 0, 0, 0⟩
       let ox := Int.fdiv ((canvas_size.1 : Int) - (target_w : Int)) 2
       let oy := Int.fdiv ((canvas_size.2 : Int) - (target_h : Int)) 2
       let pasted := canvas.paste shrunken ox oy
       render_thumbnail resample blend oload thumbnail ratio ocolor opath =
           apply_overlay resample blend oload pasted ocolor opath ∧
         ∀ i, i < target_w → ∀ j, j < target_h →
           pasted.px (ox.toNat + i) (oy.toNat + j) =
             ((shrunken.convert Mode.RGBA).px i j)) := by
  have hcw : (crop_black_bars (standardize_thumbnail resample thumbnail)
      10).width ≤ 1280 :=
    crop_black_bars_width_le (standardize_thumbnail resample thumbnail) 10
  have hch : (crop_black_bars (standardize_thumbnail resample thumbnail)
      10).height ≤ 720 :=
    crop_black_bars_height_le (standardize_thumbnail resample thumbnail) 10
  refine ⟨?_, ?_, ?_, ?_⟩
  · simp only [render_thumbnail]
    rw [apply_overlay_width]
    rfl
  · simp only [render_thumbnail]
    rw [apply_overlay_height]
    rfl
  · simp only [render_thumbnail]
    rw [apply_overlay_mode]
  · refine ⟨rfl, ?_⟩
    intro i hi j hj
    have hq0w : (0 : ℚ) ≤
        ((crop_black_bars (standardize_thumbnail resample thumbnail) 10).width
          : ℚ) * ratio :=
      mul_nonneg (Nat.cast_nonneg _) h0.le
    have hq0h : (0 : ℚ) ≤
        ((crop_black_bars (standardize_thumbnail resample thumbnail) 10).height
          : ℚ) * ratio :=
      mul_nonneg (Nat.cast_nonneg _) h0.le
    have hflw : pyInt
        (((crop_black_bars (standardize_thumbnail resample thumbnail) 10).width
          : ℚ) * ratio)
        ≤ ((crop_black_bars (standardize_thumbnail resample thumbnail)
            10).width : Int) := by
      rw [pyInt, if_neg (not_lt.2 hq0w)]
      calc ⌊((crop_black_bars (standardize_thumbnail resample thumbnail)
              10).width : ℚ) * ratio⌋
          ≤ ⌊((crop_black_bars (standardize_thumbnail resample thumbnail)
              10).width : ℚ)⌋ :=
            Int.floor_mono (mul_le_of_le_one_right (Nat.cast_nonneg _) h1)
        _ = _ := Int.floor_natCast _
    have hflh : pyInt
        (((crop_black_bars (standardize_thumbnail resample thumbnail)
          10).height : ℚ) * ratio)
        ≤ ((crop_black_bars (standardize_thumbnail resample thumbnail)
            10).height : Int) := by
      rw [pyInt, if_neg (not_lt.2 hq0h)]
      calc ⌊((crop_black_bars (standardize_thumbnail resample thumbnail)
              10).height : ℚ) * ratio⌋
          ≤ ⌊((crop_black_bars (standardize_thumbnail resample thumbnail)
              10).height : ℚ)⌋ :=
            Int.floor_mono (mul_le_of_le_one_right (Nat.cast_nonneg _) h1)
        _ = _ := Int.floor_natCast _
    have hox : 0 ≤ Int.fdiv ((canvas_size.1 : Int) -
        ((pyInt (((crop_black_bars (standardize_thumbnail resample thumbnail)
          10).width : ℚ) * ratio)).toNat : Int)) 2 := by
      apply Int.fdiv_nonneg _ (by omega)
      have : (canvas_size.1 : Int) = 1280 := rfl
      omega
    have hoy : 0 ≤ Int.fdiv ((canvas_size.2 : Int) -
        ((pyInt (((crop_black_bars (standardize_thumbnail resample thumbnail)
          10).height : ℚ) * ratio)).toNat : Int)) 2 := by
      apply Int.fdiv_nonneg _ (by omega)
      have : (canvas_size.2 : Int) = 720 := rfl
      omega
    exact paste_px_in _ _ _ _ hox hoy i j hi hj

/-- Witness for C8 at ratio 1 with a concrete 1×1 source image. -/
theorem c8_composition_witness :
    (render_thumbnail nearestResample overBlend
      (fun _ => Except.error "file not found") blackRGBA1 1 ⟨0, 0, 0, 100⟩
      none).width = 1280 :=
  (c8_composition nearestResample overBlend
    (fun _ => Except.error "file not found") blackRGBA1 1 ⟨0, 0, 0, 100⟩
    none one_pos le_rfl).1

/-- A small concrete RGBA canvas for the C9 witness. -/
def canvasSmall : Img := ⟨Mode.RGBA, 2, 2, fun _ _ => ⟨1, 2, 3, 4⟩⟩

/-- C9: whenever a non-empty overlay image path is supplied but loading it
fails, the overlay stage composites the flat configured overlay color over
the canvas instead — a single alpha-composite, with no error escaping
(`apply_overlay` is total; the exception is consumed by the `except`
branch of the source). -/
theorem c9_overlay_fallback (resample : Resample) (blend : Blend)
    (oload : String → Except String Img) (canvas : Img) (ocolor : Color)
    (p e : String) (hp : p ≠ "") (he : oload p = Except.error e) :
    apply_overlay resample blend oload canvas ocolor (some p) =
      alpha_composite blend canvas
        (image_new Mode.RGBA canvas_size.1 canvas_size.2 ocolor) := by
  simp only [apply_overlay]
  rw [if_neg hp, he]

/-- Witness for C9: a concrete failing loader with the batch's overlay
path falls back to the flat color. -/
theorem c9_overlay_fallback_witness :
    apply_overlay nearestResample overBlend (fun _ => Except.error "boom")
        canvasSmall ⟨0, 0, 0, 100⟩ (some "RSVP Outline White.png") =
      alpha_composite overBlend canvasSmall
        (image_new Mode.RGBA canvas_size.1 canvas_size.2 ⟨0, 0, 0, 100⟩) :=
  c9_overlay_fallback nearestResample overBlend (fun _ => Except.error "boom")
    canvasSmall ⟨0, 0, 0, 100⟩ "RSVP Outline White.png" "boom" (by decide) rfl

/-- An item whose video id cannot be extracted, or whose thumbnail fetch
finds no status-200 resolution, makes `process_thumbnail` return
`Except.ok none`: skipped, no output, no exception. -/
lemma process_thumbnail_skip (resample : Resample) (blend : Blend)
    (net : String → Nat × String) (dec oload : String → Except String Img)
    (url dir : String) (ratio : ℚ) (ocolor : Color) (opath : Option String)
    (app : String)
    (h : match extract_video_id url with
      | none => True
      | some vid => fetch_thumbnail_image net dec vid = Except.ok none) :
    process_thumbnail resample blend net dec oload url dir ratio ocolor opath
      app = Except.ok none := by
  unfold process_thumbnail
  cases he : extract_video_id url with
  | none => rfl
  | some vid =>
    simp only [he] at h
    simp only [h]

/-- URL with an extractable video id but no reachable thumbnail. -/
def urlW : String := "https://youtu.be/abcdefghijk"

/-- URL whose video id is aaaaaaaaaaa. -/
def urlA : String := "https://youtu.be/aaaaaaaaaaa"

/-- URL whose video id is bbbbbbbbbbb. -/
def urlB : String := "https://youtu.be/bbbbbbbbbbb"

/-- A network on which every request fails with status 404. -/
def net404 : String → Nat × String := fun _ => (404, "")

/-- A network that serves a (bogus) body with status 200 for the
maxresdefault thumbnail of video aaaaaaaaaaa and 404 for everything
else. -/
def netCE : String → Nat × String := fun u =>
  if u = "https://i.ytimg.com/vi/aaaaaaaaaaa/maxresdefault.jpg" then
    (200, "notanimage")
  else (404, "")

/-- A decoder that rejects every body, as `PIL.Image.open` does on bytes
that are not a valid image (it raises `UnidentifiedImageError`). -/
def decFail : String → Except String Img :=
  fun _ => Except.error "cannot identify image file"

/-- An overlay loader that fails on every path (no overlay file patches
the working directory of the model). -/
def oloadFail : String → Except String Img :=
  fun _ => Except.error "file not found"

/-- C1 counterexample: a decode failure does abort the batch.  On a batch
of two URLs where the first URL's thumbnail fetch returns status 200 with
undecodable bytes, the `Image.open` exception propagates out of the loop
(there is no try/except in `batch_process_thumbnails`), so the run ends
with the error and the second URL is never processed — no outputs at
all, rather than "item skipped and processing continues". -/
theorem c1_counterexample_decode_abort :
    processUrls nearestResample overBlend netCE decFail oloadFail "thumbnails"
      [urlA, urlB] = Except.error "cannot identify image file" := rfl

/-- C1 (amended): an item whose fetch fails with a non-success status for
every candidate resolution (or whose URL has no extractable video id) is
skipped with no output and the batch continues: processing `url :: rest`
produces exactly the outputs of processing `rest`. -/
theorem c1_fetch_failure_skips (resample : Resample) (blend : Blend)
    (net : String → Nat × String) (dec oload : String → Except String Img)
    (dir url : String) (rest : List String)
    (h : match extract_video_id url with
      | none => True
      | some vid => fetch_thumbnail_image net dec vid = Except.ok none) :
    processUrls resample blend net dec oload dir (url :: rest) =
      processUrls resample blend net dec oload dir rest := by
  have h1 := process_thumbnail_skip resample blend net dec oload url dir
    (955 / 1000 : ℚ) ⟨0, 0, 0, 100⟩ (some "RSVP Outline White.png") "White" h
  have h2 := process_thumbnail_skip resample blend net dec oload url dir
    (955 / 1000 : ℚ) ⟨0, 0, 0, 100⟩ (some "RSVP Outline Black.png") "Black" h
  simp only [processUrls, h1, h2]
  cases hr : processUrls resample blend net dec oload dir rest <;> simp

/-- Witness for the amended C1: a URL whose every thumbnail request
returns 404 is skipped and the batch result equals that of the empty
batch. -/
theorem c1_fetch_failure_skips_witness :
    processUrls nearestResample overBlend net404 decFail oloadFail "thumbnails"
        [urlW] =
      processUrls nearestResample overBlend net404 decFail oloadFail
        "thumbnails" [] :=
  c1_fetch_failure_skips nearestResample overBlend net404 decFail oloadFail
    "thumbnails" urlW [] (by rfl)
